import Mathlib

/-!
Verification development for the ExpenseTracker service (`src/main.py`).

Modelling conventions, stated once here and relied on throughout:

* The SQLite table `expenses` is modelled as a `DB`: the list of stored rows
  in rowid (id) ascending order — the order in which a full table scan visits
  them — together with the `AUTOINCREMENT` counter `nextId` (the value the
  next `INSERT` will assign; SQLite's `AUTOINCREMENT` never reuses a value,
  even after deletion, which is exactly a monotone counter).
* `REAL` amounts are modelled as exact rationals `ℚ`; the claims under study
  concern which records are aggregated, not floating-point rounding.
* `TEXT` comparison (`BETWEEN`, `ORDER BY`) is SQLite's binary collation,
  which on the ASCII date strings used here coincides with Lean's `String`
  order.
* `ORDER BY` is modelled as a stable sort over the scan order, and
  `GROUP BY c` emits one output row per distinct key in ascending key order
  (SQLite builds the groups through a transient index on the key); this is
  the deterministic evaluation the running engine exhibits.  The SQL text
  itself pins only the keys named in `ORDER BY`; tie behaviour among equal
  keys is the modelled scan/grouping order.
* A Python dict returned by a tool is modelled as an association list
  `Dict := List (String × JValue)`; `JValue` covers exactly the value shapes
  this program puts in its envelopes (the arrays of record dicts are carried
  as typed lists, a transparent isomorphism).
* Each tool body runs inside `try/except Exception`, so every operation takes
  a `fault : Option String` oracle: `some e` models the underlying storage
  layer (aiosqlite / `ensure_db`) raising exception `e` before the work
  commits, `none` models a normal run.  The `except` arm is the match on that
  oracle producing the error envelope `{"status": "error", "message": str(e)}`.
-/

namespace ExpenseTracker

/-- One row of the `expenses` table (schema created by `ensure_db`):
`id INTEGER PRIMARY KEY AUTOINCREMENT`, `date TEXT`, `amount REAL`,
`category TEXT`, `subcategory TEXT DEFAULT ''`, `note TEXT DEFAULT ''`. -/
structure Expense where
  id : Nat
  date : String
  amount : ℚ
  category : String
  subcategory : String
  note : String
deriving DecidableEq, Repr

/-- One output row of the `GROUP BY category` aggregation in
`summarize_expenses`: `SELECT category, SUM(amount) AS total, COUNT(*) AS count`. -/
structure SummaryRow where
  category : String
  total : ℚ
  count : Nat
deriving DecidableEq, Repr

/-- The persistent store: the table rows in rowid (id) ascending scan order,
plus the `AUTOINCREMENT` counter for the next id to assign. -/
structure DB where
  rows : List Expense
  nextId : Nat
deriving DecidableEq, Repr

/-- The store of a freshly created database: no rows, ids start at 1. -/
def initDB : DB := ⟨[], 1⟩

/-- JSON-like values as they occur in this program's response envelopes. -/
inductive JValue where
  | s : String → JValue
  | q : ℚ → JValue
  | n : Nat → JValue
  | expenses : List Expense → JValue
  | rows : List SummaryRow → JValue
deriving DecidableEq, Repr

/-- A Python dict, as an association list in insertion order. -/
abbrev Dict := List (String × JValue)

/-- The `status` entry of an envelope. -/
def statusOf (d : Dict) : Option JValue := d.lookup "status"

/-- The uniform error envelope `{"status": "error", "message": msg}` every
tool's `except` arm returns. -/
def errorEnvelope (msg : String) : Dict :=
  [("status", JValue.s "error"), ("message", JValue.s msg)]

/-- SQLite's BINARY collation on `TEXT`: lexicographic comparison of the
code-unit sequences, modelled on the character lists of the strings. -/
def textLe (a b : String) : Prop := a.data ≤ b.data

/-- Strict BINARY-collation comparison. -/
def textLt (a b : String) : Prop := a.data < b.data

instance : DecidableRel textLe := fun a b =>
  inferInstanceAs (Decidable (a.data ≤ b.data))

instance : DecidableRel textLt := fun a b =>
  inferInstanceAs (Decidable (a.data < b.data))

instance : IsTotal String textLe := ⟨fun a b => le_total a.data b.data⟩

instance : IsTrans String textLe := ⟨fun _ _ _ hab hbc => le_trans hab hbc⟩

theorem textLe_antisymm {a b : String} (hab : textLe a b) (hba : textLe b a) :
    a = b :=
  String.ext (le_antisymm hab hba)

theorem textLt_iff_le_not_le {a b : String} :
    textLt a b ↔ textLe a b ∧ ¬ textLe b a :=
  lt_iff_le_not_le

/-- The `WHERE date BETWEEN ? AND ?` predicate (inclusive lexical range). -/
def inRange (d1 d2 : String) (e : Expense) : Bool :=
  decide (textLe d1 e.date ∧ textLe e.date d2)

/-- The `ORDER BY date DESC` sort key relation on rows. -/
def dateDescRel (a b : Expense) : Prop := textLe b.date a.date

instance : DecidableRel dateDescRel := fun a b =>
  inferInstanceAs (Decidable (textLe b.date a.date))

instance : IsTotal Expense dateDescRel :=
  ⟨fun a b => total_of textLe b.date a.date⟩

instance : IsTrans Expense dateDescRel :=
  ⟨fun _ _ _ hab hbc => trans_of textLe hbc hab⟩

/-- The row sequence produced by `list_expenses`'s query
`SELECT ... WHERE date BETWEEN ? AND ? ORDER BY date DESC`: scan the table in
rowid order, keep the rows in the inclusive range, stable-sort by date
descending. -/
def queryRangeRows (db : DB) (d1 d2 : String) : List Expense :=
  List.insertionSort dateDescRel (db.rows.filter (inRange d1 d2))

/-- The tool `list_expenses(start_date, end_date)`. -/
def list_expenses (d1 d2 : String) (fault : Option String) (db : DB) : Dict :=
  match fault with
  | some e => errorEnvelope e
  | none =>
    let expenses := queryRangeRows db d1 d2
    [("status", JValue.s "success"),
     ("count", JValue.n expenses.length),
     ("expenses", JValue.expenses expenses)]

/-- The tool `add_expense(date, amount, category, subcategory="", note="")`:
`INSERT INTO expenses ...` assigns the next rowid and `cur.lastrowid` is
returned in the success envelope. -/
def add_expense (date : String) (amount : ℚ) (category subcategory note : String)
    (fault : Option String) (db : DB) : Dict × DB :=
  match fault with
  | some e => (errorEnvelope e, db)
  | none =>
    let row : Expense := ⟨db.nextId, date, amount, category, subcategory, note⟩
    let db' : DB := ⟨db.rows ++ [row], db.nextId + 1⟩
    ([("status", JValue.s "success"),
      ("id", JValue.n db.nextId),
      ("message", JValue.s s!"Expense added: ${amount} for {category}")], db')

/-- The tool `delete_expense(expense_id)`: `DELETE FROM expenses WHERE id = ?`
commits, then `cur.rowcount == 0` selects the not-found error envelope. -/
def delete_expense (expense_id : Nat) (fault : Option String) (db : DB) : Dict × DB :=
  match fault with
  | some e => (errorEnvelope e, db)
  | none =>
    if db.rows.length -
        (db.rows.filter (fun e => decide (e.id ≠ expense_id))).length = 0 then
      (errorEnvelope s!"Expense {expense_id} not found",
        ⟨db.rows.filter (fun e => decide (e.id ≠ expense_id)), db.nextId⟩)
    else
      ([("status", JValue.s "success"),
        ("message", JValue.s s!"Expense {expense_id} deleted")],
        ⟨db.rows.filter (fun e => decide (e.id ≠ expense_id)), db.nextId⟩)

/-- The optional `AND category = ?` conjunct of `summarize_expenses`:
Python's `if category:` appends it only when `category` is truthy, i.e.
neither `None` nor the empty string. -/
def catFilter (category : Option String) (e : Expense) : Bool :=
  match category with
  | some c => if c = "" then true else decide (e.category = c)
  | none => true

/-- The full `WHERE` predicate of `summarize_expenses`'s query. -/
def summaryPred (d1 d2 : String) (category : Option String) (e : Expense) : Bool :=
  inRange d1 d2 e && catFilter category e

/-- The `ORDER BY total DESC` sort key relation on summary rows. -/
def totalDescRel (a b : SummaryRow) : Prop := b.total ≤ a.total

instance : DecidableRel totalDescRel := fun a b =>
  inferInstanceAs (Decidable (b.total ≤ a.total))

instance : IsTotal SummaryRow totalDescRel := ⟨fun a b => le_total b.total a.total⟩

instance : IsTrans SummaryRow totalDescRel :=
  ⟨fun _ _ _ hab hbc => le_trans hbc hab⟩

/-- The filtered scan (`FROM expenses WHERE ...`) feeding the aggregation
query of `summarize_expenses`. -/
def summaryScan (db : DB) (d1 d2 : String) (category : Option String) :
    List Expense :=
  db.rows.filter (summaryPred d1 d2 category)

/-- The group keys of `GROUP BY category`: the distinct categories of the
filtered scan, in ascending key order (the order the grouping's transient
index produces them in). -/
def summaryCats (db : DB) (d1 d2 : String) (category : Option String) :
    List String :=
  List.insertionSort textLe
    ((summaryScan db d1 d2 category).map (fun e => e.category)).dedup

/-- One aggregated output row,
`SELECT category, SUM(amount) AS total, COUNT(*) AS count`, for group key
`c` over the filtered scan `rows`. -/
def summaryGroup (rows : List Expense) (c : String) : SummaryRow :=
  SummaryRow.mk c
    (((rows.filter (fun e => decide (e.category = c))).map (fun e => e.amount)).sum)
    (rows.filter (fun e => decide (e.category = c))).length

/-- The row sequence produced by `summarize_expenses`'s query
`SELECT category, SUM(amount) AS total, COUNT(*) AS count ... GROUP BY
category ORDER BY total DESC`: aggregate each group, then stable-sort the
group rows by total descending. -/
def summarizeRows (db : DB) (d1 d2 : String) (category : Option String) :
    List SummaryRow :=
  List.insertionSort totalDescRel
    ((summaryCats db d1 d2 category).map (summaryGroup (summaryScan db d1 d2 category)))

/-- The tool `summarize_expenses(start_date, end_date, category=None)`; the
grand `total` is Python's `sum(row['total'] for row in summary)`, which is `0`
on an empty summary. -/
def summarize_expenses (d1 d2 : String) (category : Option String)
    (fault : Option String) (db : DB) : Dict :=
  match fault with
  | some e => errorEnvelope e
  | none =>
    let summary := summarizeRows db d1 d2 category
    let total := (summary.map (fun r => r.total)).sum
    [("status", JValue.s "success"),
     ("summary", JValue.rows summary),
     ("total", JValue.q total),
     ("period", JValue.s s!"{d1} to {d2}")]

/-- The tool-call boundary of `add_expense`, modelled from the Python
signature `add_expense(date: str, amount: float, category: str,
subcategory: str = "", note: str = "")`: `date`, `amount`, `category` carry
no default, so a call omitting any of them is rejected by the framework's
argument binding as a validation error before the body runs (no insertion
happens); the optional parameters take their declared default `""`. -/
def add_expense_tool (date : Option String) (amount : Option ℚ)
    (category subcategory note : Option String)
    (fault : Option String) (db : DB) : Dict × DB :=
  match date, amount, category with
  | some d, some a, some c =>
    add_expense d a c (subcategory.getD "") (note.getD "") fault db
  | _, _, _ => (errorEnvelope "validation error: missing required argument", db)

/-- The in-memory default category list `DEFAULT_CATEGORIES["categories"]`. -/
def DEFAULT_CATEGORIES : List String :=
  ["Food & Dining", "Transportation", "Shopping", "Entertainment",
   "Bills & Utilities", "Healthcare", "Travel", "Education", "Business", "Other"]

/-- Modelled `json.dumps({"categories": cats}, indent=2)` for a nonempty
`cats` (the only shape this program serializes: the ten-element default). -/
def dumpsCategoriesIndent2 (cats : List String) : String :=
  "\x7b\n  \"categories\": [\n"
    ++ String.intercalate ",\n" (cats.map (fun c => "    \"" ++ c ++ "\""))
    ++ "\n  ]\n\x7d"

/-- The environment `get_categories` consults: the cloud flag, whether
`categories.json` exists next to the script, and the outcome of reading it
(`Except.error` models `open`/`read` raising). -/
structure CategoriesEnv where
  isCloud : Bool
  fileExists : Bool
  readResult : Except String String

/-- The resource `get_categories()`: locally, an existing readable
`categories.json` is returned verbatim; any raise is swallowed by
`except Exception: pass`; every other path returns the serialized default. -/
def get_categories (env : CategoriesEnv) : String :=
  if !env.isCloud then
    if env.fileExists then
      match env.readResult with
      | Except.ok contents => contents
      | Except.error _ => dumpsCategoriesIndent2 DEFAULT_CATEGORIES
    else dumpsCategoriesIndent2 DEFAULT_CATEGORIES
  else dumpsCategoriesIndent2 DEFAULT_CATEGORIES

/-- A mutating request issued against the service. -/
inductive Op where
  | add (date : String) (amount : ℚ) (category subcategory note : String)
  | del (i : Nat)

/-- The `id` field a successful `add_expense` envelope carries. -/
def returnedId (d : Dict) : Option Nat :=
  match d.lookup "id" with
  | some (JValue.n i) => some i
  | _ => none

/-- Run a sequence of mutating requests (no storage faults), collecting the
ids the successful inserts return, in call order. -/
def runOps : DB → List Op → DB × List Nat
  | db, [] => (db, [])
  | db, Op.add d a c s n :: ops =>
    let r := add_expense d a c s n none db
    let rest := runOps r.2 ops
    (rest.1, (returnedId r.1).toList ++ rest.2)
  | db, Op.del i :: ops => runOps (delete_expense i none db).2 ops

/-! Stability of the modelled sorter: `List.insertionSort r` keeps elements
with equal `r`-keys in input order, so sorting a list that is pairwise `t`
(the input order) yields a list pairwise in the lexicographic combination of
the strict part of `r` and `t`. -/

/-- Lexicographic combination of the strict part of a total preorder `r` with
a tie-break relation `t`. -/
def sLex {α : Type} (r t : α → α → Prop) (a b : α) : Prop :=
  (r a b ∧ ¬ r b a) ∨ (r a b ∧ r b a ∧ t a b)

theorem pairwise_sLex_orderedInsert {α : Type} (r : α → α → Prop) [DecidableRel r]
    [IsTotal α r] [IsTrans α r] (t : α → α → Prop) (l : List α) (a : α)
    (hs : l.Sorted r) (hp : l.Pairwise (sLex r t)) (ha : ∀ b ∈ l, t a b) :
    (l.orderedInsert r a).Pairwise (sLex r t) := by
  induction l with
  | nil => simp [List.orderedInsert]
  | cons b l ih =>
    rw [List.orderedInsert]
    by_cases hab : r a b
    · rw [if_pos hab]
      refine List.Pairwise.cons ?_ hp
      intro c hc
      rcases List.mem_cons.mp hc with hcb | hcl
      · subst hcb
        by_cases hba : r c a
        · exact Or.inr ⟨hab, hba, ha c (List.mem_cons_self _ _)⟩
        · exact Or.inl ⟨hab, hba⟩
      · have hbc : r b c := (List.sorted_cons.mp hs).1 c hcl
        have hac : r a c := trans_of r hab hbc
        by_cases hca : r c a
        · exact Or.inr ⟨hac, hca, ha c (List.mem_cons_of_mem _ hcl)⟩
        · exact Or.inl ⟨hac, hca⟩
    · rw [if_neg hab]
      have hs' := List.sorted_cons.mp hs
      have hp' := List.pairwise_cons.mp hp
      refine List.Pairwise.cons ?_
        (ih hs'.2 hp'.2 fun c hc => ha c (List.mem_cons_of_mem _ hc))
      intro c hc
      rcases (List.mem_orderedInsert r).mp hc with hca | hcl
      · subst hca
        have hba : r b c := (total_of r c b).resolve_left hab
        exact Or.inl ⟨hba, hab⟩
      · exact hp'.1 c hcl

theorem pairwise_sLex_insertionSort {α : Type} (r : α → α → Prop) [DecidableRel r]
    [IsTotal α r] [IsTrans α r] (t : α → α → Prop) (l : List α)
    (hp : l.Pairwise t) : (List.insertionSort r l).Pairwise (sLex r t) := by
  induction l with
  | nil => simp
  | cons a l ih =>
    rw [List.insertionSort]
    have hp' := List.pairwise_cons.mp hp
    refine pairwise_sLex_orderedInsert r t _ a
      (List.sorted_insertionSort r l) (ih hp'.2) ?_
    intro b hb
    exact hp'.1 b ((List.perm_insertionSort r l).mem_iff.mp hb)

/-! Claim C1. -/

/-- The ordering the claim asserts for `list_expenses`: date descending, ties
on equal dates broken by id descending. -/
def dateDescIdDescOrdered (l : List Expense) : Prop :=
  l.Pairwise (fun a b => textLt b.date a.date ∨ (a.date = b.date ∧ b.id < a.id))

/-- A store with two records on the same date, ids 1 and 2 (id 1 inserted
first). -/
def dbTie : DB :=
  ⟨[⟨1, "2024-03-01", 5, "Food & Dining", "", ""⟩,
    ⟨2, "2024-03-01", 7, "Transportation", "", ""⟩], 3⟩

/-- C1 counterexample: on a store holding two records with the same date
(ids 1 and 2), `list_expenses` over a range containing that date returns the
tie in id-ascending scan order, so the returned sequence is not ordered with
ties broken by id descending as the claim states. -/
theorem list_expenses_tie_not_id_desc :
    (list_expenses "2024-01-01" "2024-12-31" none dbTie).lookup "expenses" =
      some (JValue.expenses (queryRangeRows dbTie "2024-01-01" "2024-12-31")) ∧
    (queryRangeRows dbTie "2024-01-01" "2024-12-31").map (fun e => e.id) = [1, 2] ∧
    ¬ dateDescIdDescOrdered (queryRangeRows dbTie "2024-01-01" "2024-12-31") := by
  refine ⟨rfl, by decide, ?_⟩
  intro h
  have := List.pairwise_cons.mp h
  simpa [dateDescIdDescOrdered, textLt] using this.1

/-- C1 (amended): for a store whose scan order carries ids in ascending order
(as insertion produces), `list_expenses(d1, d2)` returns exactly the stored
records whose date lies in the inclusive lexical range `[d1, d2]`, ordered by
date descending with ties on equal dates in insertion order, i.e. id
ascending (the query has no secondary sort key, so ties stay in scan order).
-/
theorem list_expenses_range_and_order (db : DB) (d1 d2 : String)
    (h : db.rows.Pairwise (fun a b => a.id < b.id)) :
    (list_expenses d1 d2 none db).lookup "expenses" =
      some (JValue.expenses (queryRangeRows db d1 d2)) ∧
    (∀ e, e ∈ queryRangeRows db d1 d2 ↔
      e ∈ db.rows ∧ textLe d1 e.date ∧ textLe e.date d2) ∧
    (queryRangeRows db d1 d2).Pairwise
      (fun a b => textLt b.date a.date ∨ (a.date = b.date ∧ a.id < b.id)) := by
  refine ⟨rfl, ?_, ?_⟩
  · intro e
    unfold queryRangeRows
    rw [(List.perm_insertionSort dateDescRel _).mem_iff, List.mem_filter]
    simp [inRange]
  · have hfilter : (db.rows.filter (inRange d1 d2)).Pairwise
        (fun a b => a.id < b.id) := h.filter _
    have hs := pairwise_sLex_insertionSort dateDescRel
      (fun a b => a.id < b.id) _ hfilter
    refine hs.imp ?_
    rintro a b (⟨hab, hba⟩ | ⟨hab, hba, ht⟩)
    · exact Or.inl (textLt_iff_le_not_le.mpr ⟨hab, hba⟩)
    · exact Or.inr ⟨(textLe_antisymm hab hba).symm, ht⟩

/-- Witness for the amended C1 at the concrete store `dbTie`. -/
theorem list_expenses_range_and_order_witness :
    dbTie.rows.Pairwise (fun a b => a.id < b.id) ∧
    ((list_expenses "2024-01-01" "2024-12-31" none dbTie).lookup "expenses" =
      some (JValue.expenses (queryRangeRows dbTie "2024-01-01" "2024-12-31")) ∧
    (∀ e, e ∈ queryRangeRows dbTie "2024-01-01" "2024-12-31" ↔
      e ∈ dbTie.rows ∧ textLe "2024-01-01" e.date ∧ textLe e.date "2024-12-31") ∧
    (queryRangeRows dbTie "2024-01-01" "2024-12-31").Pairwise
      (fun a b => textLt b.date a.date ∨ (a.date = b.date ∧ a.id < b.id))) :=
  ⟨by decide, list_expenses_range_and_order dbTie "2024-01-01" "2024-12-31" (by decide)⟩

/-! Claim C2. -/

/-- The stored records whose date lies in the inclusive range and whose
category is `c`, in scan order (the records a summary row for `c` covers). -/
def recordsInRangeWithCat (db : DB) (d1 d2 c : String) : List Expense :=
  db.rows.filter (fun e => inRange d1 d2 e && decide (e.category = c))

theorem summary_group_filter_eq (db : DB) (d1 d2 c : String) :
    (summaryScan db d1 d2 none).filter (fun e => decide (e.category = c)) =
      recordsInRangeWithCat db d1 d2 c := by
  unfold summaryScan recordsInRangeWithCat
  rw [List.filter_filter]
  apply List.filter_congr
  intro e _
  simp [summaryPred, catFilter, Bool.and_comm]

/-- C2: every summary row of `summarize_expenses(d1, d2)` carries as `total`
the sum of `amount` over exactly the stored records in the range bearing its
category and as `count` their number, and the envelope's grand `total` is the
sum of the per-category totals, which is 0 when the summary is empty. -/
theorem summarize_totals_and_grand_total (db : DB) (d1 d2 : String) :
    (∀ row ∈ summarizeRows db d1 d2 none,
      row.total =
        ((recordsInRangeWithCat db d1 d2 row.category).map (fun e => e.amount)).sum ∧
      row.count = (recordsInRangeWithCat db d1 d2 row.category).length) ∧
    (summarize_expenses d1 d2 none none db).lookup "total" =
      some (JValue.q ((summarizeRows db d1 d2 none).map (fun r => r.total)).sum) ∧
    (summarizeRows db d1 d2 none = [] →
      (summarize_expenses d1 d2 none none db).lookup "total" =
        some (JValue.q 0)) := by
  refine ⟨?_, rfl, ?_⟩
  · intro row hrow
    unfold summarizeRows at hrow
    have hg := (List.perm_insertionSort totalDescRel _).mem_iff.mp hrow
    rcases List.mem_map.mp hg with ⟨c, _, hc⟩
    subst hc
    unfold summaryGroup
    rw [summary_group_filter_eq db d1 d2 c]
    exact ⟨rfl, rfl⟩
  · intro h
    show (summarize_expenses d1 d2 none none db).lookup "total" = _
    unfold summarize_expenses
    rw [h]
    rfl

/-- Witness for C2 at the empty store (the case where the summary is empty
and the grand total is 0). -/
theorem summarize_totals_and_grand_total_witness :
    summarizeRows initDB "2024-01-01" "2024-12-31" none = [] ∧
    (summarize_expenses "2024-01-01" "2024-12-31" none none initDB).lookup "total" =
      some (JValue.q 0) :=
  ⟨rfl, (summarize_totals_and_grand_total initDB "2024-01-01" "2024-12-31").2.2 rfl⟩

/-! Claims C3 and C10. -/

theorem length_le_one_of_nodup_all_eq {α : Type} {l : List α} {c : α}
    (hnd : l.Nodup) (hall : ∀ x ∈ l, x = c) : l.length ≤ 1 := by
  match l with
  | [] => simp
  | [x] => simp
  | x :: y :: t =>
    exfalso
    have hx := hall x (by simp)
    have hy := hall y (by simp)
    rw [List.nodup_cons] at hnd
    exact hnd.1 (by simp [hx, hy])

/-- C3 counterexample: with the empty string passed as the category filter,
`summarize_expenses` over `dbTie` (two records, two distinct categories)
returns two summary rows, so the claim's "at most one row, for category C"
fails at C = "" (Python's `if category:` drops the falsy empty string). -/
theorem summarize_empty_string_not_single_row :
    ¬ ((summarizeRows dbTie "2024-01-01" "2024-12-31" (some "")).length ≤ 1 ∧
      ∀ row ∈ summarizeRows dbTie "2024-01-01" "2024-12-31" (some ""),
        row.category = "") := by
  intro h
  have hlen : (summarizeRows dbTie "2024-01-01" "2024-12-31" (some "")).length = 2 := by
    with_unfolding_all rfl
  rw [hlen] at h
  exact absurd h.1 (by norm_num)

/-- C3 (amended): for every NON-EMPTY category string C,
`summarize_expenses(d1, d2, category=C)` returns at most one summary row, any
returned row is for C, the summary is empty when no stored record in the
range has category C, and the call still succeeds. -/
theorem summarize_category_filter (db : DB) (d1 d2 c : String) (hc : c ≠ "") :
    (summarizeRows db d1 d2 (some c)).length ≤ 1 ∧
    (∀ row ∈ summarizeRows db d1 d2 (some c), row.category = c) ∧
    ((∀ e ∈ db.rows, ¬(inRange d1 d2 e = true ∧ e.category = c)) →
      summarizeRows db d1 d2 (some c) = []) ∧
    (summarize_expenses d1 d2 (some c) none db).lookup "status" =
      some (JValue.s "success") := by
  have hcat : ∀ e ∈ summaryScan db d1 d2 (some c), e.category = c := by
    intro e he
    have hp := (List.mem_filter.mp he).2
    simp only [summaryPred, catFilter, if_neg hc, Bool.and_eq_true,
      decide_eq_true_eq] at hp
    exact hp.2
  have hcats : ∀ x ∈ summaryCats db d1 d2 (some c), x = c := by
    intro x hx
    have hx' := (List.perm_insertionSort textLe _).mem_iff.mp hx
    rcases List.mem_map.mp (List.mem_dedup.mp hx') with ⟨e, he, hex⟩
    exact hex ▸ hcat e he
  have hnd : (summaryCats db d1 d2 (some c)).Nodup :=
    ((List.perm_insertionSort textLe _).nodup_iff).mpr (List.nodup_dedup _)
  refine ⟨?_, ?_, ?_, rfl⟩
  · unfold summarizeRows
    rw [(List.perm_insertionSort totalDescRel _).length_eq, List.length_map]
    exact length_le_one_of_nodup_all_eq hnd hcats
  · intro row hrow
    unfold summarizeRows at hrow
    have hg := (List.perm_insertionSort totalDescRel _).mem_iff.mp hrow
    rcases List.mem_map.mp hg with ⟨x, hx, hxr⟩
    rw [← hxr]
    exact hcats x hx
  · intro hnone
    have hrows : summaryScan db d1 d2 (some c) = [] := by
      unfold summaryScan
      rw [List.filter_eq_nil_iff]
      intro e he
      intro hp
      simp only [summaryPred, catFilter, if_neg hc, Bool.and_eq_true,
        decide_eq_true_eq] at hp
      exact hnone e he ⟨hp.1, hp.2⟩
    unfold summarizeRows summaryCats
    rw [hrows]
    rfl

/-- Witness for the amended C3 at `dbTie` with the (present) category
"Food & Dining". -/
theorem summarize_category_filter_witness :
    "Food & Dining" ≠ "" ∧
    ((summarizeRows dbTie "2024-01-01" "2024-12-31" (some "Food & Dining")).length ≤ 1 ∧
    (∀ row ∈ summarizeRows dbTie "2024-01-01" "2024-12-31" (some "Food & Dining"),
      row.category = "Food & Dining") ∧
    ((∀ e ∈ dbTie.rows, ¬(inRange "2024-01-01" "2024-12-31" e = true ∧
        e.category = "Food & Dining")) →
      summarizeRows dbTie "2024-01-01" "2024-12-31" (some "Food & Dining") = []) ∧
    (summarize_expenses "2024-01-01" "2024-12-31" (some "Food & Dining") none dbTie).lookup
        "status" = some (JValue.s "success")) :=
  ⟨by decide,
    summarize_category_filter dbTie "2024-01-01" "2024-12-31" "Food & Dining" (by decide)⟩

/-- C10: passing the empty string as the category filter behaves identically
to passing no filter at all: `if category:` is false for `""`, so the
`AND category = ?` conjunct is never added. -/
theorem summarize_empty_string_filter_is_no_filter (d1 d2 : String)
    (fault : Option String) (db : DB) :
    summarize_expenses d1 d2 (some "") fault db =
      summarize_expenses d1 d2 none fault db := by
  cases fault with
  | some e => rfl
  | none =>
    have hf : summaryScan db d1 d2 (some "") = summaryScan db d1 d2 none := by
      unfold summaryScan
      apply List.filter_congr
      intro e _
      simp [summaryPred, catFilter]
    unfold summarize_expenses summarizeRows summaryCats
    rw [hf]

/-! Claim C8. -/

/-- C8: the summary rows of `summarize_expenses` are ordered by `total`
descending, ties on equal totals broken by category name ascending: the
grouping emits distinct keys in ascending order and the modelled sorter is
stable, so rows with equal totals stay in ascending-category order.  The
function of the (unchanged) store is deterministic, so repeated calls return
the same sequence. -/
theorem summarize_rows_order (db : DB) (d1 d2 : String) (cat : Option String) :
    (summarize_expenses d1 d2 cat none db).lookup "summary" =
      some (JValue.rows (summarizeRows db d1 d2 cat)) ∧
    (summarizeRows db d1 d2 cat).Pairwise
      (fun a b => b.total < a.total ∨
        (a.total = b.total ∧ textLt a.category b.category)) := by
  refine ⟨rfl, ?_⟩
  have hsorted : (summaryCats db d1 d2 cat).Pairwise textLe :=
    List.sorted_insertionSort textLe _
  have hnd : (summaryCats db d1 d2 cat).Nodup :=
    ((List.perm_insertionSort textLe _).nodup_iff).mpr (List.nodup_dedup _)
  have hlt : (summaryCats db d1 d2 cat).Pairwise textLt := by
    refine hsorted.imp₂ (fun a b hle hne => ?_) hnd
    refine textLt_iff_le_not_le.mpr ⟨hle, fun hba => ?_⟩
    exact hne (textLe_antisymm hle hba)
  have hrows : ((summaryCats db d1 d2 cat).map
      (summaryGroup (summaryScan db d1 d2 cat))).Pairwise
      (fun r1 r2 => textLt r1.category r2.category) :=
    hlt.map _ (fun a b h => h)
  unfold summarizeRows
  have hs := pairwise_sLex_insertionSort totalDescRel
    (fun r1 r2 => textLt r1.category r2.category) _ hrows
  refine hs.imp ?_
  rintro a b (⟨hab, hba⟩ | ⟨hab, hba, ht⟩)
  · exact Or.inl (lt_iff_le_not_le.mpr ⟨hab, hba⟩)
  · exact Or.inr ⟨le_antisymm hba hab, ht⟩

/-! Claim C4. -/

theorem length_filter_lt_of_mem {α : Type} {p : α → Bool} {l : List α} {a : α}
    (ha : a ∈ l) (hpa : p a = false) : (l.filter p).length < l.length := by
  induction l with
  | nil => cases ha
  | cons b t ih =>
    rw [List.filter_cons]
    rcases List.mem_cons.mp ha with rfl | hat
    · rw [hpa]
      simp only [Bool.false_eq_true, if_false, List.length_cons]
      exact Nat.lt_succ_of_le (List.length_filter_le p t)
    · by_cases hpb : p b = true
      · rw [if_pos hpb]
        simpa using ih hat
      · rw [if_neg hpb]
        exact Nat.lt_succ_of_lt (ih hat)

/-- The committed `DELETE FROM expenses WHERE id = ?` leaves exactly the rows
whose id differs, whether or not anything was removed. -/
theorem delete_expense_rows (i : Nat) (db : DB) :
    (delete_expense i none db).2.rows =
      db.rows.filter (fun e => decide (e.id ≠ i)) := by
  simp only [delete_expense]
  split <;> rfl

/-- C4: deleting a stored id succeeds; afterwards no `list_expenses` result
over any range contains a record with that id; a second delete of the same
id, and more generally any delete against a store holding no row with the
id, returns the distinguished not-found error envelope (status "error",
message "Expense i not found") rather than a success. -/
theorem delete_expense_semantics (db : DB) (i : Nat)
    (h : ∃ e ∈ db.rows, e.id = i) :
    (delete_expense i none db).1.lookup "status" = some (JValue.s "success") ∧
    (∀ d1 d2 l,
      (list_expenses d1 d2 none (delete_expense i none db).2).lookup "expenses" =
        some (JValue.expenses l) → ∀ e ∈ l, e.id ≠ i) ∧
    (∀ db' : DB, (∀ e ∈ db'.rows, e.id ≠ i) →
      (delete_expense i none db').1.lookup "status" = some (JValue.s "error") ∧
      (delete_expense i none db').1.lookup "message" =
        some (JValue.s s!"Expense {i} not found")) ∧
    (delete_expense i none (delete_expense i none db).2).1.lookup "status" =
      some (JValue.s "error") := by
  have habsent : ∀ db' : DB, (∀ e ∈ db'.rows, e.id ≠ i) →
      (delete_expense i none db').1.lookup "status" = some (JValue.s "error") ∧
      (delete_expense i none db').1.lookup "message" =
        some (JValue.s s!"Expense {i} not found") := by
    intro db' hne
    have hself : db'.rows.filter (fun e => decide (e.id ≠ i)) = db'.rows :=
      List.filter_eq_self.mpr (fun e he => by simpa using hne e he)
    have hrc : db'.rows.length -
        (db'.rows.filter (fun e => decide (e.id ≠ i))).length = 0 := by
      rw [hself, Nat.sub_self]
    simp only [delete_expense, if_pos hrc]
    exact ⟨rfl, rfl⟩
  have hgone : ∀ e ∈ (delete_expense i none db).2.rows, e.id ≠ i := by
    intro e he
    rw [delete_expense_rows] at he
    simpa using (List.mem_filter.mp he).2
  rcases h with ⟨e, he, hei⟩
  have hlt : (db.rows.filter (fun e => decide (e.id ≠ i))).length <
      db.rows.length :=
    length_filter_lt_of_mem he (by simp [hei])
  have hrc : ¬ (db.rows.length -
      (db.rows.filter (fun e => decide (e.id ≠ i))).length = 0) :=
    Nat.sub_ne_zero_of_lt hlt
  refine ⟨?_, ?_, habsent, (habsent _ hgone).1⟩
  · simp only [delete_expense, if_neg hrc]
    rfl
  · intro d1 d2 l hl e' hel
    have hl' : some (JValue.expenses
        (queryRangeRows (delete_expense i none db).2 d1 d2)) =
        some (JValue.expenses l) := hl
    have hle : queryRangeRows (delete_expense i none db).2 d1 d2 = l := by
      cases Option.some.inj hl' with
      | refl => rfl
    rw [← hle] at hel
    have hmem := (List.perm_insertionSort dateDescRel _).mem_iff.mp hel
    exact hgone e' (List.mem_filter.mp hmem).1

/-- Witness for C4: the store `dbTie` holds a record with id 1. -/
theorem delete_expense_semantics_witness :
    (∃ e ∈ dbTie.rows, e.id = 1) ∧
    (delete_expense 1 none dbTie).1.lookup "status" = some (JValue.s "success") ∧
    (delete_expense 1 none (delete_expense 1 none dbTie).2).1.lookup "status" =
      some (JValue.s "error") := by
  have h : ∃ e ∈ dbTie.rows, e.id = 1 := by decide
  have hsem := delete_expense_semantics dbTie 1 h
  exact ⟨h, hsem.1, hsem.2.2.2⟩

/-! Claim C5. -/

theorem add_expense_nextId (d : String) (a : ℚ) (c s n : String) (db : DB) :
    (add_expense d a c s n none db).2.nextId = db.nextId + 1 := rfl

theorem returnedId_add (d : String) (a : ℚ) (c s n : String) (db : DB) :
    returnedId (add_expense d a c s n none db).1 = some db.nextId := rfl

/-- Deletion never touches the `AUTOINCREMENT` counter. -/
theorem delete_expense_nextId (i : Nat) (db : DB) :
    (delete_expense i none db).2.nextId = db.nextId := by
  simp only [delete_expense]
  split <;> rfl

theorem runOps_ids_ge (ops : List Op) : ∀ (db : DB) (j : Nat),
    j ∈ (runOps db ops).2 → db.nextId ≤ j := by
  induction ops with
  | nil =>
    intro db j hj
    simp [runOps] at hj
  | cons op ops ih =>
    intro db j hj
    cases op with
    | add d a c s n =>
      simp only [runOps, returnedId_add, Option.toList] at hj
      rcases List.mem_append.mp hj with h1 | h2
      · have hj1 := List.mem_singleton.mp h1
        omega
      · have hge := ih _ j h2
        rw [add_expense_nextId] at hge
        omega
    | del i =>
      simp only [runOps] at hj
      have hge := ih _ j hj
      rw [delete_expense_nextId] at hge
      exact hge

theorem runOps_ids_pairwise (ops : List Op) : ∀ db : DB,
    ((runOps db ops).2).Pairwise (fun a b => a < b) := by
  induction ops with
  | nil =>
    intro db
    simp [runOps]
  | cons op ops ih =>
    intro db
    cases op with
    | add d a c s n =>
      simp only [runOps, returnedId_add, Option.toList]
      refine List.Pairwise.cons ?_ (ih _)
      intro j hj
      have hge := runOps_ids_ge ops _ j hj
      rw [add_expense_nextId] at hge
      omega
    | del i =>
      simp only [runOps]
      exact ih _

/-- C5: over any sequence of service requests against a fresh store, the ids
returned by the successful inserts are pairwise strictly increasing in call
order — hence unique — and since deletions leave the counter untouched, an
id is never handed out again after the record bearing it is deleted. -/
theorem add_ids_unique_strictly_increasing (ops : List Op) :
    ((runOps initDB ops).2).Pairwise (fun a b => a < b) ∧
    ((runOps initDB ops).2).Nodup :=
  ⟨runOps_ids_pairwise ops initDB,
    (runOps_ids_pairwise ops initDB).imp (fun h => Nat.ne_of_lt h)⟩

/-! Claims C6 and C7. -/

/-- A well-formed response envelope: the status discriminator is "success",
or it is "error" and a human-readable message accompanies it. -/
def envOk (d : Dict) : Prop :=
  d.lookup "status" = some (JValue.s "success") ∨
  (d.lookup "status" = some (JValue.s "error") ∧
    ∃ m, d.lookup "message" = some (JValue.s m))

/-- C6: each of the four operations, on every input and even when the
storage layer raises (`fault = some e`), returns a dict carrying the uniform
success/error status discriminator, with a message in the error case.  Each
operation is a total function into `Dict` — the `except` arm converts every
lower-level fault into the error envelope, so none propagates to the
caller. -/
theorem all_operations_return_envelopes :
    (∀ d a c s n fault db, envOk (add_expense d a c s n fault db).1) ∧
    (∀ d1 d2 fault db, envOk (list_expenses d1 d2 fault db)) ∧
    (∀ d1 d2 cat fault db, envOk (summarize_expenses d1 d2 cat fault db)) ∧
    (∀ i fault db, envOk (delete_expense i fault db).1) := by
  refine ⟨?_, ?_, ?_, ?_⟩
  · intro d a c s n fault db
    cases fault with
    | some e => exact Or.inr ⟨rfl, e, rfl⟩
    | none => exact Or.inl rfl
  · intro d1 d2 fault db
    cases fault with
    | some e => exact Or.inr ⟨rfl, e, rfl⟩
    | none => exact Or.inl rfl
  · intro d1 d2 cat fault db
    cases fault with
    | some e => exact Or.inr ⟨rfl, e, rfl⟩
    | none => exact Or.inl rfl
  · intro i fault db
    cases fault with
    | some e => exact Or.inr ⟨rfl, e, rfl⟩
    | none =>
      simp only [delete_expense]
      split
      · exact Or.inr ⟨rfl, _, rfl⟩
      · exact Or.inl rfl

/-- C7: a tool call on `add_expense` missing any of the required arguments
`date`, `amount`, `category` yields a validation error envelope and performs
no insertion; a call with all three present (and no storage fault) appends
exactly one new record to the store and returns that record's newly assigned
id in a success envelope. -/
theorem add_expense_validation_and_id (db : DB) :
    (∀ od oa oc osub onote fault, (od = none ∨ oa = none ∨ oc = none) →
      (add_expense_tool od oa oc osub onote fault db).1.lookup "status" =
        some (JValue.s "error") ∧
      (add_expense_tool od oa oc osub onote fault db).2 = db) ∧
    (∀ d a c osub onote, ∃ row,
      (add_expense_tool (some d) (some a) (some c) osub onote none db).2.rows =
        db.rows ++ [row] ∧
      (add_expense_tool (some d) (some a) (some c) osub onote none db).1.lookup "id" =
        some (JValue.n row.id) ∧
      (add_expense_tool (some d) (some a) (some c) osub onote none db).1.lookup "status" =
        some (JValue.s "success")) := by
  constructor
  · intro od oa oc osub onote fault h
    rcases od with _ | d
    · exact ⟨rfl, rfl⟩
    rcases oa with _ | a
    · exact ⟨rfl, rfl⟩
    rcases oc with _ | c
    · exact ⟨rfl, rfl⟩
    rcases h with h | h | h <;> exact Option.noConfusion h
  · intro d a c osub onote
    exact ⟨⟨db.nextId, d, a, c, osub.getD "", onote.getD ""⟩, rfl, rfl, rfl⟩

/-- Witness for C7: a call missing the required `date` is rejected without
touching the fresh store. -/
theorem add_expense_validation_and_id_witness :
    ((none : Option String) = none ∨ (some (5 : ℚ) : Option ℚ) = none ∨
      (some "Food & Dining" : Option String) = none) ∧
    (add_expense_tool none (some 5) (some "Food & Dining") none none none
        initDB).1.lookup "status" = some (JValue.s "error") ∧
    (add_expense_tool none (some 5) (some "Food & Dining") none none none
        initDB).2 = initDB :=
  ⟨Or.inl rfl,
    ((add_expense_validation_and_id initDB).1 none (some 5)
      (some "Food & Dining") none none none (Or.inl rfl)).1,
    ((add_expense_validation_and_id initDB).1 none (some 5)
      (some "Food & Dining") none none none (Or.inl rfl)).2⟩

/-! Claim C9. -/

/-- C9: whenever the external categories file is absent or unreadable (or the
deployment is cloud, where no file read is attempted), `get_categories`
still returns normally — the read failure is swallowed — and serves the
built-in default verbatim: exactly the ten labels, in their declared order,
as indented JSON text under the key "categories". -/
theorem get_categories_default (env : CategoriesEnv)
    (h : env.isCloud = true ∨ env.fileExists = false ∨
      ∃ e, env.readResult = Except.error e) :
    get_categories env = dumpsCategoriesIndent2 DEFAULT_CATEGORIES ∧
    DEFAULT_CATEGORIES = ["Food & Dining", "Transportation", "Shopping",
      "Entertainment", "Bills & Utilities", "Healthcare", "Travel",
      "Education", "Business", "Other"] ∧
    dumpsCategoriesIndent2 DEFAULT_CATEGORIES =
      "\x7b\n  \"categories\": [\n    \"Food & Dining\",\n    \"Transportation\",\n    \"Shopping\",\n    \"Entertainment\",\n    \"Bills & Utilities\",\n    \"Healthcare\",\n    \"Travel\",\n    \"Education\",\n    \"Business\",\n    \"Other\"\n  ]\n\x7d" := by
  obtain ⟨ic, fe, rr⟩ := env
  refine ⟨?_, rfl, rfl⟩
  rcases h with hc | hf | ⟨e, hr⟩
  · cases hc
    rfl
  · cases hf
    cases ic <;> rfl
  · cases hr
    cases ic <;> cases fe <;> rfl

/-- Witness for C9 in the cloud deployment (no file read attempted). -/
theorem get_categories_default_witness :
    ((⟨true, true, Except.error "io error"⟩ : CategoriesEnv).isCloud = true ∨
      (⟨true, true, Except.error "io error"⟩ : CategoriesEnv).fileExists = false ∨
      ∃ e, (⟨true, true, Except.error "io error"⟩ : CategoriesEnv).readResult =
        Except.error e) ∧
    get_categories ⟨true, true, Except.error "io error"⟩ =
      dumpsCategoriesIndent2 DEFAULT_CATEGORIES :=
  ⟨Or.inl rfl,
    (get_categories_default ⟨true, true, Except.error "io error"⟩ (Or.inl rfl)).1⟩

end ExpenseTracker
